import Mathlib

/-!
Verification of `Scripts/generate-icon.py`, a script that renders an
upside-down-triangle app icon as SVG files at several sizes.

The script computes its triangle coordinates in Python `float` (IEEE-754
binary64) arithmetic and renders them with Python's `str`, which prints the
shortest decimal string that round-trips through the double value (so an
integral float prints with a trailing ".0").  We embed that arithmetic
exactly: a double value is represented by the rational number it denotes,
`nearestDouble` is IEEE round-to-nearest (ties to even) at 53 bits of
precision, and `pyFloatRepr` is the shortest-round-trip decimal printer.
All values arising in this program are positive normal doubles far from
overflow and underflow, so the exponent searches below use bounded ranges
that comfortably contain them.

The arithmetic below is phrased through `mkRat` and integer operations on
`Rat.num`/`Rat.den` (rather than `Rat.mul`/`Rat.add`) so that every
function evaluates by kernel reduction; lemmas such as `mulPow2_eq`
restate them in ordinary field arithmetic for the symbolic proofs.
-/

set_option maxRecDepth 10000

/-- `2 ^ e` as a rational, for an integer exponent. -/
def pow2 (e : ℤ) : ℚ :=
  if 0 ≤ e then mkRat (2 ^ e.toNat) 1 else mkRat 1 (2 ^ (-e).toNat)

/-- `10 ^ e` as a rational, for an integer exponent. -/
def pow10 (e : ℤ) : ℚ :=
  if 0 ≤ e then mkRat (10 ^ e.toNat) 1 else mkRat 1 (10 ^ (-e).toNat)

/-- `q * 2 ^ e`, computed on the numerator/denominator representation. -/
def mulPow2 (q : ℚ) (e : ℤ) : ℚ :=
  if 0 ≤ e then mkRat (q.num * 2 ^ e.toNat) q.den else mkRat q.num (q.den * 2 ^ (-e).toNat)

/-- `q * 10 ^ e`, computed on the numerator/denominator representation. -/
def mulPow10 (q : ℚ) (e : ℤ) : ℚ :=
  if 0 ≤ e then mkRat (q.num * 10 ^ e.toNat) q.den else mkRat q.num (q.den * 10 ^ (-e).toNat)

/-- Round a rational to the nearest integer, ties to even.  The fractional
part `q - ⌊q⌋` is compared with `1/2` through the integer
`2 * (q.num - ⌊q⌋ * q.den)` versus `q.den`. -/
def roundHalfEven (q : ℚ) : ℤ :=
  let n := ⌊q⌋
  let r2 := 2 * (q.num - n * q.den)
  if r2 < (q.den : ℤ) then n
  else if (q.den : ℤ) < r2 then n + 1
  else if n % 2 = 0 then n else n + 1

/-- Fuel-driven search for `⌊log₂ q⌋`: starting at exponent `e`, return the
first `e` with `q < 2 ^ (e+1)`.  Correct whenever `2 ^ e ≤ q` holds at the
start and the fuel reaches the answer. -/
def ilog2Go (q : ℚ) : ℕ → ℤ → ℤ
  | 0, e => e
  | fuel + 1, e => if q < pow2 (e + 1) then e else ilog2Go q fuel (e + 1)

/-- `⌊log₂ q⌋` for `q` in `[2⁻⁴, 2²³)` — the range of all values this
program feeds to the double-rounding function. -/
def ilog2 (q : ℚ) : ℤ := ilog2Go q 27 (-4)

/-- Fuel-driven search for `⌊log₁₀ q⌋`, analogous to `ilog2Go`. -/
def ilog10Go (q : ℚ) : ℕ → ℤ → ℤ
  | 0, e => e
  | fuel + 1, e => if q < pow10 (e + 1) then e else ilog10Go q fuel (e + 1)

/-- `⌊log₁₀ q⌋` for `q` in `[10⁻¹, 10⁷)`. -/
def ilog10 (q : ℚ) : ℤ := ilog10Go q 8 (-1)

/-- The IEEE-754 binary64 value nearest to the positive rational `q`
(round to nearest, ties to even, 53-bit significand; the exponent range of
binary64 is not exhausted by this program, so overflow and subnormals do
not arise).  Nonpositive inputs are clamped to 0; the program never
produces them. -/
def nearestDouble (q : ℚ) : ℚ :=
  if q.num ≤ 0 then 0
  else
    let e := ilog2 q
    mulPow2 ((roundHalfEven (mulPow2 q (52 - e)) : ℤ) : ℚ) (e - 52)

/-- Python float multiplication of an integer by a double (the integers of
this program convert to doubles exactly): exact product, rounded. -/
def fmulNat (n : ℕ) (q : ℚ) : ℚ := nearestDouble (mkRat (q.num * n) q.den)

/-- Python true division `n / d` of two nonnegative integers: the exact
quotient, rounded to a double. -/
def fdivNat (n d : ℕ) : ℚ := nearestDouble (mkRat n d)

/-- Decimal digits of `n`, most significant first, as characters
(fuel-driven so that it reduces in the kernel; `natDigits` supplies
sufficient fuel). -/
def natDigitsAux : ℕ → ℕ → List Char
  | 0, _ => []
  | fuel + 1, n =>
    if n < 10 then [Char.ofNat (48 + n)]
    else natDigitsAux fuel (n / 10) ++ [Char.ofNat (48 + n % 10)]

/-- Decimal digit characters of a natural number, as Python's `str` writes
a nonnegative `int`. -/
def natDigits (n : ℕ) : List Char := natDigitsAux (n + 1) n

/-- Python's `str` of a nonnegative `int` (used by the f-strings that build
file names and by the `{size}` fields of the SVG template). -/
def natRepr (n : ℕ) : String := String.mk (natDigits n)

/-- The rational value `d × 10 ^ (e - p + 1)` denoted by the digit value
`d` (of `p` significant digits) with decimal exponent `e`. -/
def sigVal (d : ℕ) (e : ℤ) (p : ℕ) : ℚ := mulPow10 (mkRat d 1) (e - (p : ℤ) + 1)

/-- Correctly round the positive rational `q` to `p` significant decimal
digits (ties to even): returns the digit value (in `[10^(p-1), 10^p)`) and
the decimal exponent. -/
def sigRound (q : ℚ) (p : ℕ) : ℕ × ℤ :=
  let e := ilog10 q
  let d := (roundHalfEven (mulPow10 q ((p : ℤ) - 1 - e))).toNat
  if d = 10 ^ p then (10 ^ (p - 1), e + 1) else (d, e)

/-- Smallest precision `p ≥` the given start whose correctly rounded
`p`-digit decimal parses back (by `nearestDouble`) to exactly `q`. -/
def shortestPrecGo (q : ℚ) : ℕ → ℕ → ℕ
  | 0, p => p
  | fuel + 1, p =>
    let de := sigRound q p
    if nearestDouble (sigVal de.1 de.2 p) = q then p else shortestPrecGo q fuel (p + 1)

/-- Precision used by CPython's shortest-round-trip float repr (every
binary64 value round-trips within 17 significant decimal digits). -/
def shortestPrec (q : ℚ) : ℕ := shortestPrecGo q 17 1

/-- CPython's `str`/`repr` of a positive finite float whose decimal point
position lies in the fixed-notation range (true of every value this
program prints): shortest round-trip digits, rendered in fixed notation,
with a trailing ".0" when there is no fractional digit. -/
def pyFloatRepr (q : ℚ) : String :=
  let p := shortestPrec q
  let de := sigRound q p
  let ds := natDigits de.1
  let decpt := de.2 + 1
  if decpt ≤ 0 then String.mk ('0' :: '.' :: (List.replicate (-decpt).toNat '0' ++ ds))
  else if (p : ℤ) ≤ decpt then
    String.mk (ds ++ List.replicate (decpt - (p : ℤ)).toNat '0' ++ ['.', '0'])
  else String.mk (ds.take decpt.toNat ++ '.' :: ds.drop decpt.toNat)

example : pyFloatRepr (fdivNat 16 2) = "8.0" := by decide
example : pyFloatRepr (fmulNat 32 (nearestDouble (mkRat 2 10))) = "6.4" := by decide
example : pyFloatRepr (fmulNat 1024 (nearestDouble (mkRat 2 10))) = "204.8" := by decide
example : pyFloatRepr (fmulNat 1024 (nearestDouble (mkRat 75 100))) = "768.0" := by decide
example : natRepr 1024 = "1024" := by decide
example : nearestDouble (mkRat 2 10) = mkRat 3602879701896397 18014398509481984 := by decide

/-!
## The program

`Scripts/generate-icon.py`, embedded definition by definition.  File
contents are `String`s; the filesystem is modelled later as an association
list of path ↦ content updated with overwrite semantics.
-/

/-- Line 12: `sizes = [16, 32, 64, 128, 256, 512, 1024]`. -/
def sizes : List ℕ := [16, 32, 64, 128, 256, 512, 1024]

/-- Line 15: the output directory, relative to the repository root
(`root / "Resources" / "AppIcon.iconset"`, where `root` is the parent of
the script's directory). -/
def iconset_dir : String := "Resources/AppIcon.iconset"

/-- Line 20: `center_x = size / 2` (Python 3 true division: int / int
produces the exactly-rounded float quotient). -/
def center_x (size : ℕ) : ℚ := fdivNat size 2

/-- Line 21: `top_y = size * 0.25` (the literal `0.25` parses to the
nearest double; int × float multiplies exactly-converted operands and
rounds). -/
def top_y (size : ℕ) : ℚ := fmulNat size (nearestDouble (mkRat 25 100))

/-- Line 22: `bottom_y = size * 0.75`. -/
def bottom_y (size : ℕ) : ℚ := fmulNat size (nearestDouble (mkRat 75 100))

/-- Line 23: `left_x = size * 0.2`. -/
def left_x (size : ℕ) : ℚ := fmulNat size (nearestDouble (mkRat 2 10))

/-- Line 24: `right_x = size * 0.8`. -/
def right_x (size : ℕ) : ℚ := fmulNat size (nearestDouble (mkRat 8 10))

/-- The `points` attribute value rendered by lines 27–31: bottom point,
top-left, top-right, each as `str(float)` pairs. -/
def points_attr (size : ℕ) : String :=
  pyFloatRepr (center_x size) ++ "," ++ pyFloatRepr (bottom_y size) ++ " " ++
    pyFloatRepr (left_x size) ++ "," ++ pyFloatRepr (top_y size) ++ " " ++
    pyFloatRepr (right_x size) ++ "," ++ pyFloatRepr (top_y size)

/-- Lines 6–9 and 27–32: `svg_template.format(size=size, x1=center_x,
y1=bottom_y, x2=left_x, y2=top_y, x3=right_x, y3=top_y)` — the template
with every `{size}` field replaced by `str(size)` and the point fields by
`str` of the corresponding float. -/
def svg_content (size : ℕ) : String :=
  "<?xml version=\"1.0\" encoding=\"UTF-8\"?>\n<svg width=\"" ++ natRepr size ++
    "\" height=\"" ++ natRepr size ++ "\" viewBox=\"0 0 " ++ natRepr size ++ " " ++
    natRepr size ++ "\" xmlns=\"http://www.w3.org/2000/svg\">\n  <polygon points=\"" ++
    points_attr size ++ "\" fill=\"black\"/>\n</svg>"

/-- Line 36: `f"icon_{size}x{size}.svg"`. -/
def nominalName (size : ℕ) : String :=
  "icon_" ++ natRepr size ++ "x" ++ natRepr size ++ ".svg"

/-- Line 42: `f"icon_{size//2}x{size//2}@2x.svg"` (applied to `size//2`). -/
def at2xName (n : ℕ) : String :=
  "icon_" ++ natRepr n ++ "x" ++ natRepr n ++ "@2x.svg"

/-- The file writes performed by one iteration of the `for size in sizes`
loop (lines 34–44), in program order: the nominal file when
`size <= 512`, then the `@2x` file when `size >= 32 and size <= 512`. -/
def writesFor (size : ℕ) : List (String × String) :=
  (if size ≤ 512 then [(nominalName size, svg_content size)] else []) ++
    (if 32 ≤ size ∧ size ≤ 512 then [(at2xName (size / 2), svg_content size)] else [])

/-- All file writes of one complete run, in program order. -/
def generateAll : List (String × String) := (sizes.map writesFor).flatten

example : svg_content 32 =
    "<?xml version=\"1.0\" encoding=\"UTF-8\"?>\n<svg width=\"32\" height=\"32\" viewBox=\"0 0 32 32\" xmlns=\"http://www.w3.org/2000/svg\">\n  <polygon points=\"16.0,24.0 6.4,8.0 25.6,8.0\" fill=\"black\"/>\n</svg>" := by
  decide

example : generateAll.map Prod.fst =
    ["icon_16x16.svg", "icon_32x32.svg", "icon_16x16@2x.svg", "icon_64x64.svg",
     "icon_32x32@2x.svg", "icon_128x128.svg", "icon_64x64@2x.svg", "icon_256x256.svg",
     "icon_128x128@2x.svg", "icon_512x512.svg", "icon_256x256@2x.svg"] := by decide

/-!
## Filesystem and run models

Two views of one run.  `runOn` is the filesystem effect of a successful
run: the writes applied in program order to an association list with
overwrite semantics (`open(path, "w")` truncates and rewrites).
`runProgram` additionally models the abort behaviour: the script has no
exception handling, so `mkdir` or any `open`/`write` failure terminates it
before any further write, and the two final `print` calls (lines 46–47)
happen only after the loop has completed.
-/

/-- Write `v` at key `k`: overwrite the existing entry in place, or append
a new one. -/
def setKey : List (String × String) → String → String → List (String × String)
  | [], k, v => [(k, v)]
  | (k₀, v₀) :: rest, k, v =>
    if k₀ = k then (k, v) :: rest else (k₀, v₀) :: setKey rest k v

/-- Look up the content stored at key `k`. -/
def getKey : List (String × String) → String → Option String
  | [], _ => none
  | (k₀, v₀) :: rest, k => if k₀ = k then some v₀ else getKey rest k

/-- The filesystem state (restricted to the iconset directory) after a
successful run starting from state `fs`. -/
def runOn (fs : List (String × String)) : List (String × String) :=
  generateAll.foldl (fun acc w => setKey acc w.1 w.2) fs

/-- The environment a run executes in: whether `mkdir` succeeds, and
whether writing each path succeeds. -/
structure Env where
  mkdirOk : Bool
  writeOk : String → Bool

/-- Outcome of a run: on success, the writes performed and the lines
printed to stdout; on abort, only the writes performed before the failing
operation (nothing is printed on the abort path). -/
inductive RunResult where
  | ok (written : List (String × String)) (printed : List String)
  | err (written : List (String × String))
  deriving DecidableEq

/-- Line 46: `print(f"SVG icons created in {iconset_dir}")`. -/
def doneMsg : String := "SVG icons created in " ++ iconset_dir

/-- Line 47: the conversion reminder printed after the loop. -/
def noteMsg : String :=
  "Note: You\x27ll need to convert these to PNG manually using a tool like Inkscape or ImageMagick"

/-- The write loop: attempt each pending write in order; an unwritable
path aborts immediately (an uncaught `OSError`), otherwise the two final
messages are printed after the last write. -/
def writeLoop (env : Env) : List (String × String) → List (String × String) → RunResult
  | acc, [] => .ok acc [doneMsg, noteMsg]
  | acc, (p, c) :: rest =>
    if env.writeOk p then writeLoop env (acc ++ [(p, c)]) rest else .err acc

/-- One complete run of the script in environment `env`:
`iconset_dir.mkdir(parents=True, exist_ok=True)` (line 16) aborts
everything if it fails, then the size loop performs the writes of
`generateAll` in order. -/
def runProgram (env : Env) : RunResult :=
  if env.mkdirOk then writeLoop env [] generateAll else .err []

/-- The lines a run prints to stdout (none on the abort path). -/
def printedLines : RunResult → List String
  | .ok _ printed => printed
  | .err _ => []

example :
    runProgram ⟨true, fun _ => true⟩ = .ok generateAll [doneMsg, noteMsg] := by decide
example : runProgram ⟨false, fun _ => true⟩ = .err [] := by decide
example :
    runProgram ⟨true, fun p => p ≠ "icon_16x16@2x.svg"⟩ =
      .err [(nominalName 16, svg_content 16), (nominalName 32, svg_content 32)] := by decide

/-!
## Semantics of the numeric layer

The computational definitions above are restated in ordinary field
arithmetic, and the rounding error of `nearestDouble` is bounded: the
exponent search is capped at `23`, so every rounding moves a value by at
most `2⁻³⁰` (a far coarser bound than the true relative error, but ample
for the geometric invariants).
-/

lemma mkRat_eq_div' (n : ℤ) (d : ℕ) : (mkRat n d : ℚ) = (n : ℚ) / (d : ℚ) := by
  rw [Rat.mkRat_eq_divInt, Rat.divInt_eq_div]
  norm_num

lemma mulPow2_eq (q : ℚ) (e : ℤ) : mulPow2 q e = q * (2 : ℚ) ^ e := by
  unfold mulPow2
  by_cases h : 0 ≤ e
  · rw [if_pos h, mkRat_eq_div']
    push_cast
    conv_rhs => rw [← Rat.num_div_den q]
    rw [show ((2 : ℚ) ^ e.toNat) = (2 : ℚ) ^ e from by rw [← zpow_natCast]; congr 1; omega]
    ring
  · rw [if_neg h, mkRat_eq_div']
    push_cast
    conv_rhs => rw [← Rat.num_div_den q]
    rw [show ((2 : ℚ) ^ (-e).toNat) = (2 : ℚ) ^ (-e) from by rw [← zpow_natCast]; congr 1; omega,
      zpow_neg, div_mul_eq_div_div, div_eq_mul_inv _ ((2 : ℚ) ^ e)⁻¹, inv_inv]

lemma roundHalfEven_sub_le (q : ℚ) : |(roundHalfEven q : ℚ) - q| ≤ 1 / 2 := by
  have hden : (0 : ℚ) < (q.den : ℚ) := by exact_mod_cast q.den_pos
  have hfl : ((⌊q⌋ : ℤ) : ℚ) ≤ q := Int.floor_le q
  have hfl2 : q < ⌊q⌋ + 1 := Int.lt_floor_add_one q
  have hnum : (q.num : ℚ) = q * q.den := (Rat.mul_den_eq_num q).symm
  have hprod : ((q.num : ℚ) - (⌊q⌋ : ℚ) * (q.den : ℚ)) = (q - ⌊q⌋) * q.den := by
    rw [hnum]; ring
  simp only [roundHalfEven]
  split_ifs with h1 h2 h3
  · have h1' : (2 : ℚ) * ((q.num : ℚ) - (⌊q⌋ : ℚ) * (q.den : ℚ)) < (q.den : ℚ) := by
      exact_mod_cast h1
    rw [hprod] at h1'
    rw [abs_le]
    constructor <;> nlinarith
  · have h2' : (q.den : ℚ) < (2 : ℚ) * ((q.num : ℚ) - (⌊q⌋ : ℚ) * (q.den : ℚ)) := by
      exact_mod_cast h2
    rw [hprod] at h2'
    rw [abs_le]
    push_cast
    constructor <;> nlinarith
  · have heq : (2 : ℚ) * ((q.num : ℚ) - (⌊q⌋ : ℚ) * (q.den : ℚ)) = (q.den : ℚ) := by
      exact_mod_cast le_antisymm (not_lt.mp h2) (not_lt.mp h1)
    rw [hprod] at heq
    rw [abs_le]
    constructor <;> nlinarith
  · have heq : (2 : ℚ) * ((q.num : ℚ) - (⌊q⌋ : ℚ) * (q.den : ℚ)) = (q.den : ℚ) := by
      exact_mod_cast le_antisymm (not_lt.mp h2) (not_lt.mp h1)
    rw [hprod] at heq
    rw [abs_le]
    push_cast
    constructor <;> nlinarith

lemma ilog2Go_le (q : ℚ) : ∀ (fuel : ℕ) (e : ℤ), ilog2Go q fuel e ≤ e + fuel := by
  intro fuel
  induction fuel with
  | zero => intro e; simp [ilog2Go]
  | succ n ih =>
    intro e
    rw [ilog2Go]
    split
    · omega
    · have := ih (e + 1); omega

lemma nearestDouble_sub_le (q : ℚ) (hq : 0 < q) :
    |nearestDouble q - q| ≤ (2 : ℚ) ^ (-30 : ℤ) := by
  have hnum : 0 < q.num := Rat.num_pos.mpr hq
  have he : ilog2 q ≤ 23 := by
    have := ilog2Go_le q 27 (-4)
    unfold ilog2
    omega
  unfold nearestDouble
  rw [if_neg (by omega)]
  show |mulPow2 ((roundHalfEven (mulPow2 q (52 - ilog2 q)) : ℤ) : ℚ) (ilog2 q - 52) - q| ≤ _
  set e := ilog2 q with hedef
  rw [mulPow2_eq, mulPow2_eq]
  have hpow : (0 : ℚ) < (2 : ℚ) ^ (e - 52) := zpow_pos (by norm_num) _
  have hkey : (roundHalfEven (q * (2 : ℚ) ^ (52 - e)) : ℚ) * (2 : ℚ) ^ (e - 52) - q
      = ((roundHalfEven (q * (2 : ℚ) ^ (52 - e)) : ℚ) - q * (2 : ℚ) ^ (52 - e)) *
          (2 : ℚ) ^ (e - 52) := by
    rw [sub_mul, mul_assoc, ← zpow_add₀ (by norm_num : (2 : ℚ) ≠ 0)]
    norm_num
  rw [hkey, abs_mul, abs_of_pos hpow]
  have h1 := roundHalfEven_sub_le (q * (2 : ℚ) ^ (52 - e))
  calc |(roundHalfEven (q * (2 : ℚ) ^ (52 - e)) : ℚ) - q * (2 : ℚ) ^ (52 - e)| *
        (2 : ℚ) ^ (e - 52)
      ≤ (1 / 2) * (2 : ℚ) ^ (e - 52) := mul_le_mul_of_nonneg_right h1 (le_of_lt hpow)
    _ ≤ (1 / 2) * (2 : ℚ) ^ (-29 : ℤ) := by
        have h2 := zpow_le_zpow_right₀ (by norm_num : (1 : ℚ) ≤ 2) (by omega : e - 52 ≤ -29)
        exact mul_le_mul_of_nonneg_left h2 (by norm_num)
    _ = (2 : ℚ) ^ (-30 : ℤ) := by
        rw [show (1 : ℚ) / 2 = (2 : ℚ) ^ (-1 : ℤ) from by
            rw [zpow_neg, zpow_one]; norm_num,
          ← zpow_add₀ (by norm_num : (2 : ℚ) ≠ 0)]
        norm_num

/-- `0.25` parses to the double `1/4` exactly. -/
lemma lit25_eq : nearestDouble (mkRat 25 100) = mkRat 1 4 := by decide

/-- `0.75` parses to the double `3/4` exactly. -/
lemma lit75_eq : nearestDouble (mkRat 75 100) = mkRat 3 4 := by decide

/-- `0.2` parses to the binary64 value `3602879701896397 / 2⁵⁴`, not to
`1/5`. -/
lemma lit02_eq : nearestDouble (mkRat 2 10) = mkRat 3602879701896397 18014398509481984 := by
  decide

/-- `0.8` parses to the binary64 value `3602879701896397 / 2⁵²`, not to
`4/5`. -/
lemma lit08_eq : nearestDouble (mkRat 8 10) = mkRat 3602879701896397 4503599627370496 := by
  decide

lemma fmulNat_eq (n : ℕ) (q : ℚ) : fmulNat n q = nearestDouble (q * n) := by
  unfold fmulNat
  congr 1
  rw [mkRat_eq_div']
  push_cast
  conv_rhs => rw [← Rat.num_div_den q]
  ring

lemma fdivNat_eq (n d : ℕ) : fdivNat n d = nearestDouble ((n : ℚ) / d) := by
  unfold fdivNat
  congr 1
  rw [mkRat_eq_div']
  push_cast
  ring

lemma top_y_eq (S : ℕ) : top_y S = nearestDouble ((1 / 4 : ℚ) * S) := by
  rw [top_y, fmulNat_eq, lit25_eq, mkRat_eq_div']
  norm_num

lemma bottom_y_eq (S : ℕ) : bottom_y S = nearestDouble ((3 / 4 : ℚ) * S) := by
  rw [bottom_y, fmulNat_eq, lit75_eq, mkRat_eq_div']
  norm_num

lemma left_x_eq (S : ℕ) :
    left_x S = nearestDouble ((3602879701896397 / 18014398509481984 : ℚ) * S) := by
  rw [left_x, fmulNat_eq, lit02_eq, mkRat_eq_div']
  norm_num

lemma right_x_eq (S : ℕ) :
    right_x S = nearestDouble ((3602879701896397 / 4503599627370496 : ℚ) * S) := by
  rw [right_x, fmulNat_eq, lit08_eq, mkRat_eq_div']
  norm_num

lemma center_x_eq (S : ℕ) : center_x S = nearestDouble ((1 / 2 : ℚ) * S) := by
  rw [center_x, fdivNat_eq]
  congr 1
  ring

/-- The geometric ordering of the triangle vertices, for every positive
size: the rounding error bound `2⁻³⁰` is far smaller than the separations
`0.5·S`, `≈0.3·S`, `≈0.3·S`. -/
lemma triangle_order (S : ℕ) (hS : 0 < S) :
    top_y S < bottom_y S ∧ left_x S < center_x S ∧ center_x S < right_x S := by
  have hS1 : (1 : ℚ) ≤ (S : ℚ) := by exact_mod_cast hS
  have hSpos : (0 : ℚ) < (S : ℚ) := by linarith
  have hε : (2 : ℚ) ^ (-30 : ℤ) ≤ 1 / 8 := by
    have h := zpow_le_zpow_right₀ (by norm_num : (1 : ℚ) ≤ 2) (by omega : (-30 : ℤ) ≤ -3)
    have h3 : (2 : ℚ) ^ (-3 : ℤ) = 1 / 8 := by
      rw [zpow_neg]
      norm_num
    linarith
  have b1 := abs_le.mp (nearestDouble_sub_le ((1 / 4 : ℚ) * S) (mul_pos (by norm_num) hSpos))
  have b2 := abs_le.mp (nearestDouble_sub_le ((3 / 4 : ℚ) * S) (mul_pos (by norm_num) hSpos))
  have b3 := abs_le.mp (nearestDouble_sub_le ((3602879701896397 / 18014398509481984 : ℚ) * S)
    (mul_pos (by norm_num) hSpos))
  have b4 := abs_le.mp (nearestDouble_sub_le ((1 / 2 : ℚ) * S) (mul_pos (by norm_num) hSpos))
  have b5 := abs_le.mp (nearestDouble_sub_le ((3602879701896397 / 4503599627370496 : ℚ) * S)
    (mul_pos (by norm_num) hSpos))
  refine ⟨?_, ?_, ?_⟩
  · rw [top_y_eq, bottom_y_eq]
    obtain ⟨l1, r1⟩ := b1
    obtain ⟨l2, r2⟩ := b2
    linarith
  · rw [left_x_eq, center_x_eq]
    obtain ⟨l3, r3⟩ := b3
    obtain ⟨l4, r4⟩ := b4
    linarith
  · rw [center_x_eq, right_x_eq]
    obtain ⟨l4, r4⟩ := b4
    obtain ⟨l5, r5⟩ := b5
    linarith

/-!
## Attribute extraction

A small scanner used to state "the width and height attributes agree"
directly on the rendered text: the value of the first occurrence of an
attribute pattern, up to the closing quote.
-/

/-- Drop characters up to and including the first occurrence of `pat`;
`none` if `pat` never occurs. -/
def firstAfter : List Char → List Char → Option (List Char)
  | [], _ => none
  | c :: rest, pat =>
    if pat.isPrefixOf (c :: rest) then some (List.drop pat.length (c :: rest))
    else firstAfter rest pat

/-- The value of the attribute introduced by `pat` (e.g. `width="`) in
`s`: the text from after `pat` up to the next double quote. -/
def attrVal (s : String) (pat : String) : Option String :=
  (firstAfter s.data pat.data).map (fun l => String.mk (l.takeWhile (fun c => c != '\"')))

example : attrVal (svg_content 32) "width=\"" = some "32" := by decide
example : attrVal (svg_content 1024) "height=\"" = some "1024" := by decide

/-!
## Decimal digit strings

Correctness and injectivity of `natDigits`/`natRepr`, and the fact that a
digit string never contains the letter `x` — the separator of the
`icon_{W}x{H}` filename pattern — which makes the file names uniquely
parseable.
-/

/-- Numeric value of an ASCII digit character. -/
def digitVal (c : Char) : ℕ := c.toNat - 48

/-- Value of a most-significant-first decimal digit string. -/
def digitsVal (l : List Char) : ℕ := l.foldl (fun a c => 10 * a + digitVal c) 0

lemma digitsVal_append_singleton (l : List Char) (c : Char) :
    digitsVal (l ++ [c]) = 10 * digitsVal l + digitVal c := by
  unfold digitsVal
  rw [List.foldl_append]
  rfl

lemma digitVal_ofNat (k : ℕ) (h : k < 10) : digitVal (Char.ofNat (48 + k)) = k := by
  interval_cases k <;> decide

lemma ofNat_digit_ne_x (k : ℕ) (h : k < 10) : Char.ofNat (48 + k) ≠ 'x' := by
  interval_cases k <;> decide

lemma digitsVal_natDigitsAux : ∀ fuel n : ℕ, n < fuel → digitsVal (natDigitsAux fuel n) = n := by
  intro fuel
  induction fuel with
  | zero => intro n h; omega
  | succ m ih =>
    intro n h
    rw [natDigitsAux]
    split
    next h10 =>
      unfold digitsVal
      simp [List.foldl]
      rw [digitVal_ofNat n h10]
    next h10 =>
      rw [digitsVal_append_singleton]
      have hdiv : n / 10 < m := by omega
      rw [ih _ hdiv, digitVal_ofNat (n % 10) (Nat.mod_lt _ (by norm_num))]
      omega

lemma digitsVal_natDigits (n : ℕ) : digitsVal (natDigits n) = n :=
  digitsVal_natDigitsAux (n + 1) n (by omega)

lemma natDigits_inj {m n : ℕ} (h : natDigits m = natDigits n) : m = n := by
  have hm := digitsVal_natDigits m
  rw [h, digitsVal_natDigits] at hm
  omega

lemma natDigitsAux_ne_x : ∀ fuel n : ℕ, ∀ c ∈ natDigitsAux fuel n, c ≠ 'x' := by
  intro fuel
  induction fuel with
  | zero => intro n c hc; simp [natDigitsAux] at hc
  | succ m ih =>
    intro n c hc
    rw [natDigitsAux] at hc
    split at hc
    next h10 =>
      simp at hc
      subst hc
      exact ofNat_digit_ne_x n h10
    next h10 =>
      rcases List.mem_append.mp hc with h | h
      · exact ih _ _ h
      · simp at h
        subst h
        exact ofNat_digit_ne_x (n % 10) (Nat.mod_lt _ (by norm_num))

lemma natDigits_ne_x (n : ℕ) : ∀ c ∈ natDigits n, c ≠ 'x' :=
  natDigitsAux_ne_x (n + 1) n

/-- Splitting at the first `x`: two decompositions of a character list
around an `x` whose prefixes are `x`-free agree on both sides. -/
lemma append_x_split : ∀ a c b d : List Char, (∀ ch ∈ a, ch ≠ 'x') → (∀ ch ∈ c, ch ≠ 'x') →
    a ++ 'x' :: b = c ++ 'x' :: d → a = c ∧ b = d := by
  intro a
  induction a with
  | nil =>
    intro c b d _ hc h
    cases c with
    | nil => simpa using h
    | cons c0 cs =>
      simp at h
      exact absurd h.1.symm (hc c0 (by simp))
  | cons a0 as ih =>
    intro c b d ha hc h
    cases c with
    | nil =>
      simp at h
      exact absurd h.1 (ha a0 (by simp))
    | cons c0 cs =>
      simp at h
      obtain ⟨h1, h2⟩ := h
      obtain ⟨hac, hbd⟩ := ih cs b d (fun ch hch => ha ch (by simp [hch]))
        (fun ch hch => hc ch (by simp [hch])) h2
      exact ⟨by rw [h1, hac], hbd⟩

lemma nominalName_data (n : ℕ) : (nominalName n).data =
    'i' :: 'c' :: 'o' :: 'n' :: '_' ::
      (natDigits n ++ 'x' :: (natDigits n ++ ['.', 's', 'v', 'g'])) := by
  have h1 : "icon_".data = ['i', 'c', 'o', 'n', '_'] := by decide
  have h2 : "x".data = ['x'] := by decide
  have h3 : ".svg".data = ['.', 's', 'v', 'g'] := by decide
  simp [nominalName, natRepr, String.data_append, h1, h2, h3]

lemma at2xName_data (n : ℕ) : (at2xName n).data =
    'i' :: 'c' :: 'o' :: 'n' :: '_' ::
      (natDigits n ++ 'x' :: (natDigits n ++ ['@', '2', 'x', '.', 's', 'v', 'g'])) := by
  have h1 : "icon_".data = ['i', 'c', 'o', 'n', '_'] := by decide
  have h2 : "x".data = ['x'] := by decide
  have h3 : "@2x.svg".data = ['@', '2', 'x', '.', 's', 'v', 'g'] := by decide
  simp [at2xName, natRepr, String.data_append, h1, h2, h3]

lemma nominalName_inj {m n : ℕ} (h : nominalName m = nominalName n) : m = n := by
  have hd := congrArg String.data h
  rw [nominalName_data, nominalName_data] at hd
  simp only [List.cons.injEq, true_and] at hd
  obtain ⟨h1, _⟩ := append_x_split _ _ _ _ (natDigits_ne_x m) (natDigits_ne_x n) hd
  exact natDigits_inj h1

lemma at2xName_inj {m n : ℕ} (h : at2xName m = at2xName n) : m = n := by
  have hd := congrArg String.data h
  rw [at2xName_data, at2xName_data] at hd
  simp only [List.cons.injEq, true_and] at hd
  obtain ⟨h1, _⟩ := append_x_split _ _ _ _ (natDigits_ne_x m) (natDigits_ne_x n) hd
  exact natDigits_inj h1

lemma nominalName_ne_at2xName (m n : ℕ) : nominalName m ≠ at2xName n := by
  intro h
  have hd := congrArg String.data h
  rw [nominalName_data, at2xName_data] at hd
  simp only [List.cons.injEq, true_and] at hd
  obtain ⟨h1, h2⟩ := append_x_split _ _ _ _ (natDigits_ne_x m) (natDigits_ne_x n) hd
  rw [h1] at h2
  simpa using List.append_cancel_left h2

/-!
## Association-list filesystem lemmas
-/

lemma getKey_isSome_iff (fs : List (String × String)) (k : String) :
    (getKey fs k).isSome ↔ k ∈ fs.map Prod.fst := by
  induction fs with
  | nil => simp [getKey]
  | cons hd tl ih =>
    obtain ⟨k₀, v₀⟩ := hd
    rw [getKey]
    by_cases h : k₀ = k
    · subst h; simp
    · rw [if_neg h]
      simp only [List.map_cons, List.mem_cons]
      rw [ih]
      constructor
      · exact fun hm => Or.inr hm
      · rintro (rfl | hm)
        · exact absurd rfl h
        · exact hm

lemma getKey_setKey (fs : List (String × String)) (k v k' : String) :
    getKey (setKey fs k v) k' = if k = k' then some v else getKey fs k' := by
  induction fs with
  | nil => simp [setKey, getKey]
  | cons hd tl ih =>
    obtain ⟨k₀, v₀⟩ := hd
    by_cases h1 : k₀ = k
    · subst h1
      by_cases h2 : k₀ = k' <;> simp [setKey, getKey, h2]
    · by_cases h2 : k₀ = k'
      · subst h2
        have hne : ¬ k = k₀ := fun hh => h1 hh.symm
        simp [setKey, getKey, h1, hne]
      · simp [setKey, getKey, h1, h2, ih]

lemma setKey_of_getKey_eq (fs : List (String × String)) (k v : String)
    (h : getKey fs k = some v) : setKey fs k v = fs := by
  induction fs with
  | nil => simp [getKey] at h
  | cons hd tl ih =>
    obtain ⟨k₀, v₀⟩ := hd
    by_cases h1 : k₀ = k
    · subst h1
      rw [getKey, if_pos rfl] at h
      obtain rfl : v₀ = v := by injection h
      simp [setKey]
    · rw [getKey, if_neg h1] at h
      simp [setKey, h1, ih h]

lemma foldl_setKey_eq_self (ws : List (String × String)) :
    ∀ fs : List (String × String), (∀ w ∈ ws, getKey fs w.1 = some w.2) →
      ws.foldl (fun acc w => setKey acc w.1 w.2) fs = fs := by
  induction ws with
  | nil => intro fs _; rfl
  | cons w rest ih =>
    intro fs h
    rw [List.foldl_cons, setKey_of_getKey_eq fs w.1 w.2 (h w (List.mem_cons_self _ _))]
    exact ih fs fun w' hw' => h w' (List.mem_cons_of_mem _ hw')

lemma getKey_foldl_setKey_of_not_mem (ws : List (String × String)) :
    ∀ fs : List (String × String), ∀ k, k ∉ ws.map Prod.fst →
      getKey (ws.foldl (fun acc w => setKey acc w.1 w.2) fs) k = getKey fs k := by
  induction ws with
  | nil => intro fs k _; rfl
  | cons w rest ih =>
    intro fs k hk
    simp only [List.map_cons, List.mem_cons, not_or] at hk
    rw [List.foldl_cons, ih _ _ hk.2, getKey_setKey, if_neg fun hh => hk.1 hh.symm]

lemma getKey_foldl_setKey_of_mem (ws : List (String × String)) :
    ∀ fs : List (String × String), ∀ k v, (ws.map Prod.fst).Nodup → (k, v) ∈ ws →
      getKey (ws.foldl (fun acc w => setKey acc w.1 w.2) fs) k = some v := by
  induction ws with
  | nil => simp
  | cons w rest ih =>
    intro fs k v hnd hmem
    rw [List.foldl_cons]
    simp only [List.map_cons, List.nodup_cons] at hnd
    rcases List.mem_cons.mp hmem with heq | hmem'
    · obtain rfl : w = (k, v) := heq.symm
      rw [getKey_foldl_setKey_of_not_mem rest _ k hnd.1, getKey_setKey, if_pos rfl]
    · exact ih _ k v hnd.2 hmem'

/-!
## Write-loop lemmas
-/

lemma writeLoop_all_ok (env : Env) :
    ∀ ws acc : List (String × String), (∀ w ∈ ws, env.writeOk w.1 = true) →
      writeLoop env acc ws = .ok (acc ++ ws) [doneMsg, noteMsg] := by
  intro ws
  induction ws with
  | nil => intro acc _; simp [writeLoop]
  | cons w rest ih =>
    intro acc h
    obtain ⟨p, c⟩ := w
    rw [writeLoop, if_pos (h (p, c) (List.mem_cons_self _ _)),
      ih (acc ++ [(p, c)]) fun w' hw' => h w' (List.mem_cons_of_mem _ hw')]
    simp

lemma writeLoop_ok_inv (env : Env) :
    ∀ ws acc files printed, writeLoop env acc ws = .ok files printed →
      files = acc ++ ws ∧ printed = [doneMsg, noteMsg] ∧ ∀ w ∈ ws, env.writeOk w.1 = true := by
  intro ws
  induction ws with
  | nil =>
    intro acc files printed h
    rw [writeLoop] at h
    injection h with h1 h2
    simp [h1.symm, h2.symm]
  | cons w rest ih =>
    intro acc files printed h
    obtain ⟨p, c⟩ := w
    rw [writeLoop] at h
    by_cases hw : env.writeOk p
    · rw [if_pos hw] at h
      obtain ⟨h1, h2, h3⟩ := ih _ _ _ h
      refine ⟨by simp [h1], h2, ?_⟩
      intro w' hw'
      rcases List.mem_cons.mp hw' with heq | hmem
      · subst heq; exact hw
      · exact h3 w' hmem
    · rw [if_neg hw] at h
      cases h

lemma writeLoop_err_inv (env : Env) :
    ∀ ws acc w, writeLoop env acc ws = .err w →
      ∃ pre p c post, ws = pre ++ (p, c) :: post ∧ w = acc ++ pre ∧
        env.writeOk p = false ∧ ∀ x ∈ pre, env.writeOk x.1 = true := by
  intro ws
  induction ws with
  | nil =>
    intro acc w h
    rw [writeLoop] at h
    cases h
  | cons hd rest ih =>
    intro acc w h
    obtain ⟨p, c⟩ := hd
    rw [writeLoop] at h
    by_cases hw : env.writeOk p
    · rw [if_pos hw] at h
      obtain ⟨pre, p', c', post, h1, h2, h3, h4⟩ := ih _ _ h
      refine ⟨(p, c) :: pre, p', c', post, by simp [h1], by simp [h2], h3, ?_⟩
      intro x hx
      rcases List.mem_cons.mp hx with heq | hmem
      · subst heq; exact hw
      · exact h4 x hmem
    · rw [if_neg hw] at h
      injection h with h1
      exact ⟨[], p, c, rest, rfl, by simp [h1.symm], by simpa using hw, by simp⟩

/-!
## The claims
-/

/-- Claim C9: within a single run over the fixed size list, every written
file path is distinct from every other written file path (no nominal name
repeats, no `@2x` name repeats, and no nominal name equals an `@2x`
name). -/
theorem c9_paths_nodup : (generateAll.map Prod.fst).Nodup := by decide

/-- Claim C1 (the code contradicts the documented intent): processing
S = 1024 writes nothing at all — the `@2x` branch requires `size <= 512`,
so `icon_512x512@2x.svg` is never produced (and `icon_1024x1024.svg` is
not produced either, which is the one part of the claim the code does
satisfy). -/
theorem c1_size1024_writes_nothing :
    writesFor 1024 = [] ∧
    getKey (runOn []) (at2xName 512) = none ∧
    getKey (runOn []) (nominalName 1024) = none ∧
    at2xName 512 ∉ generateAll.map Prod.fst := by decide

/-- Claim C10: for every size with both writes (32 ≤ S ≤ 512), the
iteration writes the nominal file and the `@2x` file with the one rendered
string `svg_content S`, so the two contents are byte-identical. -/
theorem c10_at2x_content_eq_nominal :
    ∀ S ∈ sizes, 32 ≤ S → S ≤ 512 →
      writesFor S = [(nominalName S, svg_content S), (at2xName (S / 2), svg_content S)] := by
  intro S hS h32 h512
  fin_cases hS <;> first | omega | rfl

theorem c10_witness :
    writesFor 32 = [(nominalName 32, svg_content 32), (at2xName (32 / 2), svg_content 32)] :=
  c10_at2x_content_eq_nominal 32 (by decide) (by decide) (by decide)

/-- Claim C6: a second run writes byte-identical content to every path of
the first run and adds no entries — applying the run to any filesystem
state already produced by the run leaves it unchanged. -/
theorem c6_idempotent (fs : List (String × String)) : runOn (runOn fs) = runOn fs := by
  unfold runOn
  apply foldl_setKey_eq_self
  intro w hw
  obtain ⟨k, v⟩ := w
  exact getKey_foldl_setKey_of_mem generateAll fs k v (by decide) hw

/-- Claim C3 (counterexample): the points attribute of `icon_32x32.svg` is
the float-formatted string, not the integer-formatted one of the claim. -/
theorem c3_counterexample :
    points_attr 32 = "16.0,24.0 6.4,8.0 25.6,8.0" ∧
    points_attr 32 ≠ "16,24 6.4,8 25.6,8" := by decide

/-- Claim C3 (amended): S = 32 writes `icon_32x32.svg` and
`icon_16x16@2x.svg` with the same content, whose polygon points attribute
is exactly "16.0,24.0 6.4,8.0 25.6,8.0" (Python float formatting) and
whose width and height attributes are both "32". -/
theorem c3_amended :
    getKey (runOn []) (nominalName 32) = some (svg_content 32) ∧
    getKey (runOn []) (at2xName 16) = some (svg_content 32) ∧
    points_attr 32 = "16.0,24.0 6.4,8.0 25.6,8.0" ∧
    attrVal (svg_content 32) "points=\"" = some "16.0,24.0 6.4,8.0 25.6,8.0" ∧
    attrVal (svg_content 32) "width=\"" = some "32" ∧
    attrVal (svg_content 32) "height=\"" = some "32" := by decide

/-- Claim C4 (counterexample): the coordinates are Python floats, not
integers — `center_x` at S = 16 renders as "8.0" where `str(16 // 2)`
would give "8", and `left_x` at S = 16 is not exactly 0.2 × 16 = 16/5. -/
theorem c4_counterexample :
    pyFloatRepr (center_x 16) = "8.0" ∧
    natRepr (16 / 2) = "8" ∧
    pyFloatRepr (center_x 16) ≠ natRepr (16 / 2) ∧
    left_x 16 ≠ mkRat 16 5 := by decide

/-- Claim C4 (amended): for every size in the list the coordinates are the
binary64 values `top_y = 0.25·S`, `bottom_y = 0.75·S`, `center_x = 0.5·S`
(all exact), and `left_x`/`right_x = S ×` (the double nearest 0.2 / 0.8),
which differ from the exact 0.2·S and 0.8·S; all are rendered in float
format (integral values get a trailing ".0"), not as integers. -/
theorem c4_amended :
    ∀ S ∈ sizes,
      top_y S = mkRat S 4 ∧ bottom_y S = mkRat (3 * S) 4 ∧ center_x S = mkRat S 2 ∧
      left_x S = mkRat (3602879701896397 * S) 18014398509481984 ∧
      right_x S = mkRat (3602879701896397 * S) 4503599627370496 ∧
      left_x S ≠ mkRat S 5 ∧ right_x S ≠ mkRat (4 * S) 5 ∧
      pyFloatRepr (center_x S) = natRepr (S / 2) ++ ".0" := by decide

theorem c4_witness :
    top_y 16 = mkRat 16 4 ∧ bottom_y 16 = mkRat (3 * 16) 4 ∧ center_x 16 = mkRat 16 2 ∧
    left_x 16 = mkRat (3602879701896397 * 16) 18014398509481984 ∧
    right_x 16 = mkRat (3602879701896397 * 16) 4503599627370496 ∧
    left_x 16 ≠ mkRat 16 5 ∧ right_x 16 ≠ mkRat (4 * 16) 5 ∧
    pyFloatRepr (center_x 16) = natRepr (16 / 2) ++ ".0" :=
  c4_amended 16 (by decide)

/-- The exact SVG document schema as the spec's §6 states it, as a
function of the width/height string and the six vertex coordinate strings
(first vertex = bottom, second = top-left, third = top-right).  This
definition follows the spec's schema text, for comparison with the
program's `svg_content`. -/
def spec_svg_schema (s x1 y1 x2 y2 x3 y3 : String) : String :=
  "<?xml version=\"1.0\" encoding=\"UTF-8\"?>\n<svg width=\"" ++ s ++ "\" height=\"" ++ s ++
    "\" viewBox=\"0 0 " ++ s ++ " " ++ s ++
    "\" xmlns=\"http://www.w3.org/2000/svg\">\n  <polygon points=\"" ++
    x1 ++ "," ++ y1 ++ " " ++ x2 ++ "," ++ y2 ++ " " ++ x3 ++ "," ++ y3 ++
    "\" fill=\"black\"/>\n</svg>"

/-- Claim C5: every produced file matches the spec's exact SVG schema for
some size S of the list: an XML declaration, an `<svg>` root whose width
and height both equal S and whose viewBox is `0 0 S S`, containing exactly
one black-filled polygon whose vertices appear in the order bottom
(`center_x, bottom_y`), top-left (`left_x, top_y`), top-right
(`right_x, top_y`). -/
theorem c5_schema :
    ∀ w ∈ generateAll, ∃ S ∈ sizes, w.2 =
      spec_svg_schema (natRepr S) (pyFloatRepr (center_x S)) (pyFloatRepr (bottom_y S))
        (pyFloatRepr (left_x S)) (pyFloatRepr (top_y S)) (pyFloatRepr (right_x S))
        (pyFloatRepr (top_y S)) := by decide

theorem c5_witness :
    ∃ S ∈ sizes, svg_content 16 =
      spec_svg_schema (natRepr S) (pyFloatRepr (center_x S)) (pyFloatRepr (bottom_y S))
        (pyFloatRepr (left_x S)) (pyFloatRepr (top_y S)) (pyFloatRepr (right_x S))
        (pyFloatRepr (top_y S)) :=
  c5_schema (nominalName 16, svg_content 16) (by decide)

/-- Claim C7: every generated file's width attribute equals its height
attribute, and for every positive size the triangle satisfies
`top_y < bottom_y` and `left_x < center_x < right_x`. -/
theorem c7_invariants :
    (∀ w ∈ generateAll, attrVal w.2 "width=\"" = attrVal w.2 "height=\"") ∧
    (∀ S : ℕ, 0 < S → top_y S < bottom_y S ∧ left_x S < center_x S ∧ center_x S < right_x S) :=
  ⟨by decide, triangle_order⟩

theorem c7_witness :
    attrVal (svg_content 16) "width=\"" = attrVal (svg_content 16) "height=\"" ∧
    (top_y 32 < bottom_y 32 ∧ left_x 32 < center_x 32 ∧ center_x 32 < right_x 32) :=
  ⟨c7_invariants.1 (nominalName 16, svg_content 16) (by decide),
   c7_invariants.2 32 (by decide)⟩

/-- Claim C8: a `mkdir` failure aborts the run with nothing written and
nothing printed; a write failure aborts before any later write (the files
written form a proper prefix of the full write list) with nothing printed;
and the two completion messages are printed exactly when the directory
creation and every file write succeeded. -/
theorem c8_abort_and_messages (env : Env) :
    (env.mkdirOk = false → runProgram env = .err []) ∧
    (env.mkdirOk = true → (∀ w ∈ generateAll, env.writeOk w.1 = true) →
      runProgram env = .ok generateAll [doneMsg, noteMsg]) ∧
    (∀ w, runProgram env = .err w →
      printedLines (runProgram env) = [] ∧ w <+: generateAll ∧ w ≠ generateAll) ∧
    (∀ files printed, runProgram env = .ok files printed →
      files = generateAll ∧ printed = [doneMsg, noteMsg] ∧ env.mkdirOk = true ∧
        ∀ w ∈ generateAll, env.writeOk w.1 = true) := by
  refine ⟨?_, ?_, ?_, ?_⟩
  · intro h
    simp [runProgram, h]
  · intro h hall
    simp only [runProgram, h, if_true]
    rw [writeLoop_all_ok env generateAll [] hall]
    simp
  · intro w h
    refine ⟨by rw [h]; rfl, ?_⟩
    by_cases hm : env.mkdirOk
    · simp only [runProgram, hm, if_true] at h
      obtain ⟨pre, p, c, post, h1, h2, h3, _⟩ := writeLoop_err_inv env generateAll [] w h
      simp only [List.nil_append] at h2
      subst h2
      constructor
      · exact ⟨(p, c) :: post, h1.symm⟩
      · intro heq
        rw [heq] at h1
        have hlen := congrArg List.length h1
        simp at hlen
    · simp only [runProgram, hm] at h
      simp only [Bool.false_eq_true, if_false, RunResult.err.injEq] at h
      subst h
      constructor
      · exact ⟨generateAll, rfl⟩
      · intro heq
        have : (nominalName 16, svg_content 16) ∈ generateAll := by decide
        rw [← heq] at this
        simp at this
  · intro files printed h
    by_cases hm : env.mkdirOk
    · simp only [runProgram, hm, if_true] at h
      obtain ⟨h1, h2, h3⟩ := writeLoop_ok_inv env generateAll [] files printed h
      exact ⟨by simpa using h1, h2, hm, h3⟩
    · simp [runProgram, hm] at h

theorem c8_witness :
    runProgram ⟨true, fun _ => true⟩ = .ok generateAll [doneMsg, noteMsg] :=
  (c8_abort_and_messages ⟨true, fun _ => true⟩).2.1 rfl fun _ _ => rfl

/-- Claim C2: after one complete run on an empty directory, the nominal
file `icon_{S}x{S}.svg` exists iff S is in the size list and S ≤ 512; the
file `icon_{N}x{N}@2x.svg` exists iff some S in the list has S / 2 = N and
32 ≤ S ≤ 512; and no other files are produced. -/
theorem c2_file_presence :
    (∀ S : ℕ, (getKey (runOn []) (nominalName S)).isSome ↔ S ∈ sizes ∧ S ≤ 512) ∧
    (∀ N : ℕ, (getKey (runOn []) (at2xName N)).isSome ↔
      ∃ S ∈ sizes, S / 2 = N ∧ 32 ≤ S ∧ S ≤ 512) ∧
    (∀ name ∈ (runOn []).map Prod.fst,
      (∃ S ∈ sizes, S ≤ 512 ∧ name = nominalName S) ∨
      (∃ S ∈ sizes, 32 ≤ S ∧ S ≤ 512 ∧ name = at2xName (S / 2))) := by
  have hkeys : (runOn []).map Prod.fst =
      [nominalName 16, nominalName 32, at2xName 16, nominalName 64, at2xName 32,
       nominalName 128, at2xName 64, nominalName 256, at2xName 128, nominalName 512,
       at2xName 256] := by decide
  refine ⟨?_, ?_, ?_⟩
  · intro S
    rw [getKey_isSome_iff, hkeys]
    constructor
    · intro hmem
      simp only [List.mem_cons, List.not_mem_nil, or_false] at hmem
      rcases hmem with h | h | h | h | h | h | h | h | h | h | h
      · obtain rfl := nominalName_inj h; decide
      · obtain rfl := nominalName_inj h; decide
      · exact absurd h (nominalName_ne_at2xName S 16)
      · obtain rfl := nominalName_inj h; decide
      · exact absurd h (nominalName_ne_at2xName S 32)
      · obtain rfl := nominalName_inj h; decide
      · exact absurd h (nominalName_ne_at2xName S 64)
      · obtain rfl := nominalName_inj h; decide
      · exact absurd h (nominalName_ne_at2xName S 128)
      · obtain rfl := nominalName_inj h; decide
      · exact absurd h (nominalName_ne_at2xName S 256)
    · rintro ⟨hin, h512⟩
      fin_cases hin <;> first | omega | decide
  · intro N
    rw [getKey_isSome_iff, hkeys]
    constructor
    · intro hmem
      simp only [List.mem_cons, List.not_mem_nil, or_false] at hmem
      rcases hmem with h | h | h | h | h | h | h | h | h | h | h
      · exact absurd h.symm (nominalName_ne_at2xName 16 N)
      · exact absurd h.symm (nominalName_ne_at2xName 32 N)
      · obtain rfl := at2xName_inj h; decide
      · exact absurd h.symm (nominalName_ne_at2xName 64 N)
      · obtain rfl := at2xName_inj h; decide
      · exact absurd h.symm (nominalName_ne_at2xName 128 N)
      · obtain rfl := at2xName_inj h; decide
      · exact absurd h.symm (nominalName_ne_at2xName 256 N)
      · obtain rfl := at2xName_inj h; decide
      · exact absurd h.symm (nominalName_ne_at2xName 512 N)
      · obtain rfl := at2xName_inj h; decide
    · rintro ⟨S, hS, hN, h32, h512⟩
      subst hN
      fin_cases hS <;> first | omega | decide
  · decide

theorem c2_witness :
    (getKey (runOn []) (nominalName 16)).isSome ∧
    ((∃ S ∈ sizes, S ≤ 512 ∧ nominalName 16 = nominalName S) ∨
     (∃ S ∈ sizes, 32 ≤ S ∧ S ≤ 512 ∧ nominalName 16 = at2xName (S / 2))) :=
  ⟨(c2_file_presence.1 16).mpr (by decide), c2_file_presence.2.2 (nominalName 16) (by decide)⟩

theorem c6_witness : runOn (runOn []) = runOn [] := c6_idempotent []
